import Mathlib

/-
Verification development for the mqttactions repository.

Part 1 embeds `src/mqttactions/runtime.py` (the type-directed message
dispatcher: `SubscriberManager.add_subscriber`, `SubscriberManager.notify`,
the module level topic dispatch table and client registry).

Part 2 embeds `src/mqttactions/geo.py` (the per-location recurring event
scheduler: the scan loop `Location._run_scheduler`, the first-occurrence
computation of `on_sunrise` / `on_sunset` / `on_localtime`, and the
self-rescheduling `job` closures).

Modelling conventions:
- Python type objects that can appear as payload tags are the inductive
  `PyType`; the three converter keys (bytes, str, dict) are `Tag`.
- Converted payload values are `PyVal D`, where `D` is an abstract
  representation (with decidable equality) of parsed JSON documents; the
  external decoders `bytes.decode` and `json.loads` are abstract
  parameters returning `Option` (`none` models a raised exception).
- A Python callable is identified by a natural number; whether an
  invocation of callable `n` with argument `a` raises is modelled by a
  behaviour function `behave : Nat → Option (PyVal D) → Bool`
  (`true` = raises).
- A raised exception is modelled by an explicit Bool / Option / Except
  result; instants (timezone-aware datetimes) are `Int`, calendar dates
  are `Nat`, and the astronomical formulas are abstract `Nat → Int`
  functions of the date, per the black-box boundary of the spec.
-/

set_option autoImplicit false

namespace Mqtt

/-- The three payload-type tags that key `SubscriberManager.subscribers_by_type`
and `SubscriberManager.converters`.  `inspect.getmembers` enumerates the
converter methods sorted by name (`_convert_to_bytes`, `_convert_to_dict`,
`_convert_to_str`), which fixes the dict insertion order used by `notify`. -/
inductive Tag where
  | bytes
  | dict
  | str
deriving DecidableEq, Repr

/-- Iteration order of `subscribers_by_type` in `notify`: the insertion order
set up in `SubscriberManager.__init__` (alphabetical by converter name). -/
def tagOrder : List Tag := [Tag.bytes, Tag.dict, Tag.str]

/-- Python type objects relevant to registration: the three supported payload
types plus any other type (e.g. `int`), indexed by a code.  Annotations are
taken after the `typing.get_origin` normalization step. -/
inductive PyType where
  | bytes
  | dict
  | str
  | other (code : Nat)
deriving DecidableEq, Repr

/-- A converted payload value: raw bytes (a byte list), a decoded text, or a
parsed JSON document with abstract representation `D`. -/
inductive PyVal (D : Type) where
  | vbytes (b : List Nat)
  | vstr (s : String)
  | vdict (d : D)
deriving DecidableEq, Repr

/-- The Python `__class__` of a payload value. -/
def PyVal.typeOf {D : Type} : PyVal D → PyType
  | .vbytes _ => .bytes
  | .vstr _ => .str
  | .vdict _ => .dict

/-- Membership of a Python type in the fixed converter table
`SubscriberManager.converters`, whose keys are exactly the three tags. -/
def PyType.toTag? : PyType → Option Tag
  | .bytes => some Tag.bytes
  | .dict => some Tag.dict
  | .str => some Tag.str
  | .other _ => none

/-- The fixed converter table of `SubscriberManager`:
`_convert_to_bytes` is the identity, `_convert_to_str` is UTF-8 decoding and
`_convert_to_dict` is `json.loads`; the two stdlib decoders are abstract
parameters, `none` modelling a raised decoding exception. -/
def converters {D : Type} (decodeUtf8 : List Nat → Option String)
    (jsonLoads : List Nat → Option D) : Tag → List Nat → Option (PyVal D)
  | Tag.bytes, p => some (PyVal.vbytes p)
  | Tag.str, p => (decodeUtf8 p).map PyVal.vstr
  | Tag.dict, p => (jsonLoads p).map PyVal.vdict

/-- The `Subscriber` TypedDict of runtime.py: the callback (identified by a
number), the inferred `datatype` entry (the `callback_type` stored at
registration; `none` when the callback declared no parameter), and the
optional exact-match payload filter. -/
structure Subscriber (D : Type) where
  callback : Nat
  datatype : Option PyType
  payload_filter : Option (PyVal D)
deriving DecidableEq, Repr

/-- The registration-relevant shape of a Python callback: its identity, its
parameter count, and the (normalized) type of its single
parameter — `none` when the parameter carries no type at all
(`inspect._empty`). -/
structure PyCallback where
  id : Nat
  paramCount : Nat
  annot : Option PyType
deriving DecidableEq, Repr

/-- The `subscribers_by_type` mapping.  Its key set is fixed to the three
tags by `__init__`, so it is a total function from `Tag`. -/
def SubsState (D : Type) : Type := Tag → List (Subscriber D)

/-- The empty `subscribers_by_type` built by `SubscriberManager.__init__`. -/
def initSubs (D : Type) : SubsState D := fun _ => []

/-- Append a subscriber to the list of one tag (the
`self.subscribers_by_type[effective_type].append(...)` statement). -/
def appendSub {D : Type} (st : SubsState D) (t : Tag) (s : Subscriber D) :
    SubsState D :=
  fun t' => if t' = t then st t' ++ [s] else st t'

/-- The `callback_type` computed by `add_subscriber`: set only when the
callback declares exactly one parameter; an unannotated single parameter
defaults to raw bytes ("No type annotation, just give it the raw payload"). -/
def callbackTypeOf (cb : PyCallback) : Option PyType :=
  if cb.paramCount = 1 then some (cb.annot.getD PyType.bytes) else none

/-- The compatibility check of `add_subscriber`: a filter and a computed
callback type that are both present must name the same Python type
(`payload_filter.__class__ is not callback_type`). -/
def incompatible {D : Type} (pf : Option (PyVal D)) (ct : Option PyType) :
    Bool :=
  match pf, ct with
  | some f, some t => decide (f.typeOf ≠ t)
  | _, _ => false

/-- The `effective_type = callback_type or filter_type or bytes` expression
of `add_subscriber`. -/
def effectiveTypeOf {D : Type} (cb : PyCallback) (pf : Option (PyVal D)) :
    PyType :=
  ((callbackTypeOf cb).orElse (fun _ => pf.map PyVal.typeOf)).getD PyType.bytes

/-- `SubscriberManager.add_subscriber`.  Returns the new state together with
`true` when the subscriber was appended, `false` when it was rejected
(logged and dropped, state unchanged).  Rejections, in source order: more
than one declared parameter; filter type incompatible with the computed
callback type; effective type not a key of the converter table. -/
def add_subscriber {D : Type} [DecidableEq D] (st : SubsState D)
    (cb : PyCallback) (pf : Option (PyVal D)) : SubsState D × Bool :=
  if 1 < cb.paramCount then (st, false)
  else if incompatible pf (callbackTypeOf cb) then (st, false)
  else
    match (effectiveTypeOf cb pf).toTag? with
    | none => (st, false)
    | some tg =>
      (appendSub st tg ⟨cb.id, callbackTypeOf cb, pf⟩, true)

/-- An invocation event of `notify`: the callback identity and the argument
it was applied to (`none` for a zero-argument invocation). -/
abbrev Event (D : Type) : Type := Nat × Option (PyVal D)

/-- The argument passed to a subscriber's callback by `notify`: the converted
payload when a `datatype` was recorded, nothing otherwise
(`if subscriber['datatype'] is None: callback() else: callback(converted)`). -/
def argOf {D : Type} (s : Subscriber D) (v : PyVal D) : Option (PyVal D) :=
  if s.datatype.isSome then some v else none

/-- The inner loop of `notify` over one tag's subscriber list, given the
converted value `v`.  Returns the invocation events in order and whether an
invoked callback raised (aborting the whole `notify` call, since the loop
body has no exception handler around the callback). -/
def deliverSubs {D : Type} [DecidableEq D]
    (behave : Nat → Option (PyVal D) → Bool) (v : PyVal D) :
    List (Subscriber D) → List (Event D) × Bool
  | [] => ([], false)
  | s :: rest =>
    if s.payload_filter.isSome ∧ s.payload_filter ≠ some v then
      deliverSubs behave v rest
    else
      let a := argOf s v
      if behave s.callback a then ([(s.callback, a)], true)
      else
        let r := deliverSubs behave v rest
        ((s.callback, a) :: r.1, r.2)

/-- Observable outcome of a `notify` call: the tags whose converter was
invoked (in order), the callback invocation events (in order), and whether
an uncaught callback exception propagated out of `notify`. -/
structure NotifyResult (D : Type) where
  convCalls : List Tag
  events : List (Event D)
  raised : Bool
deriving DecidableEq, Repr

/-- The outer loop of `notify` over the tags of `subscribers_by_type`, in
dict iteration order.  A tag with no subscribers is skipped before its
converter is invoked; a converter that raises is caught and only that tag is
skipped; a callback that raises propagates and ends the call. -/
def notifyGo {D : Type} [DecidableEq D]
    (conv : Tag → List Nat → Option (PyVal D))
    (behave : Nat → Option (PyVal D) → Bool) (payload : List Nat)
    (subs : SubsState D) : List Tag → NotifyResult D
  | [] => ⟨[], [], false⟩
  | t :: rest =>
    if (subs t).isEmpty then notifyGo conv behave payload subs rest
    else
      match conv t payload with
      | none =>
        let r := notifyGo conv behave payload subs rest
        ⟨t :: r.convCalls, r.events, r.raised⟩
      | some v =>
        let d := deliverSubs behave v (subs t)
        if d.2 then ⟨[t], d.1, true⟩
        else
          let r := notifyGo conv behave payload subs rest
          ⟨t :: r.convCalls, d.1 ++ r.events, r.raised⟩

/-- `SubscriberManager.notify(payload)`. -/
def notify {D : Type} [DecidableEq D]
    (conv : Tag → List Nat → Option (PyVal D))
    (behave : Nat → Option (PyVal D) → Bool) (payload : List Nat)
    (subs : SubsState D) : NotifyResult D :=
  notifyGo conv behave payload subs tagOrder

/-- The subscribers of one tag's list that `notify` actually invokes for
converted value `v` (filter absent, or filter equal to the converted value),
with the argument each receives. -/
def matchedEvents {D : Type} [DecidableEq D] (v : PyVal D)
    (l : List (Subscriber D)) : List (Event D) :=
  (l.filter fun s => s.payload_filter = none ∨ s.payload_filter = some v).map
    fun s => (s.callback, argOf s v)

/-- The events `notify` produces when no invoked callback raises: per tag in
iteration order, nothing when the tag has no subscribers or its conversion
fails (only that tag's subscribers skipped), otherwise the events of the
tag's matched subscribers. -/
def expectedEvents {D : Type} [DecidableEq D]
    (conv : Tag → List Nat → Option (PyVal D)) (payload : List Nat)
    (subs : SubsState D) (ts : List Tag) : List (Event D) :=
  (ts.map fun t =>
    if (subs t).isEmpty then []
    else
      match conv t payload with
      | none => []
      | some v => matchedEvents v (subs t)).flatten

/-- The module-level mutable state of runtime.py: the registered bus client
(identified by a number, `none` before `register_client`), the topic
dispatch table `_subscribers` in insertion order, and the log of
`client.subscribe(topic)` calls made so far. -/
structure RuntimeState (D : Type) where
  mqtt_client : Option Nat
  subscribers : List (String × SubsState D)
  subscribeLog : List String

/-- Dictionary lookup in the topic dispatch table
(`topic in _subscribers` / `_subscribers[topic]`). -/
def lookupTopic {D : Type} (l : List (String × SubsState D)) (topic : String) :
    Option (SubsState D) :=
  match l with
  | [] => none
  | (k, m) :: rest => if k = topic then some m else lookupTopic rest topic

/-- Replace the manager stored under an existing topic. -/
def updateTopic {D : Type} (l : List (String × SubsState D)) (topic : String)
    (f : SubsState D → SubsState D) : List (String × SubsState D) :=
  l.map fun km => if km.1 = topic then (km.1, f km.2) else km

/-- The module-level `add_subscriber(topic, callback, payload_filter)` of
runtime.py.  For an unknown topic it first calls `get_client()` — which
raises before anything is mutated when no client was registered — then
subscribes, stores a fresh `SubscriberManager`, and delegates to the
manager's `add_subscriber`.  The Bool is `true` when the call raised
(leaving the returned state exactly as it was). -/
def runtimeAddSubscriber {D : Type} [DecidableEq D] (st : RuntimeState D)
    (topic : String) (cb : PyCallback) (pf : Option (PyVal D)) :
    RuntimeState D × Bool :=
  match lookupTopic st.subscribers topic with
  | some _ =>
    ({ st with
        subscribers := updateTopic st.subscribers topic
          (fun m => (add_subscriber m cb pf).1) }, false)
  | none =>
    match st.mqtt_client with
    | none => (st, true)
    | some _ =>
      ({ st with
          subscribeLog := st.subscribeLog ++ [topic],
          subscribers := st.subscribers ++
            [(topic, (add_subscriber (initSubs D) cb pf).1)] }, false)

/-- A registration request: topic, callback descriptor, optional filter. -/
abbrev RegOp (D : Type) : Type := String × PyCallback × Option (PyVal D)

/-- A sequence of module-level `add_subscriber` calls, threading the module
state (an exception in one call aborts only that call). -/
def runOps {D : Type} [DecidableEq D] (st : RuntimeState D) :
    List (RegOp D) → RuntimeState D
  | [] => st
  | op :: rest => runOps (runtimeAddSubscriber st op.1 op.2.1 op.2.2).1 rest

/-- Invariant of the module state maintained by `runtimeAddSubscriber`: the
subscribe-call log equals the topic keys of the dispatch table in order (a
topic was subscribed exactly when its manager was created), the keys are
distinct, and a bus client is registered. -/
def GoodState {D : Type} (st : RuntimeState D) : Prop :=
  st.subscribeLog = st.subscribers.map Prod.fst
    ∧ (st.subscribers.map Prod.fst).Nodup
    ∧ st.mqtt_client.isSome = true

/-
Part 2: the recurring event scheduler of geo.py.
-/

/-- The `Callback` namedtuple of geo.py: a fire instant and the identity of
the `job` closure.  Python's namedtuple equality (used by `list.remove`)
compares the datetime by value and the callable by identity, which the
derived equality mirrors. -/
structure Entry where
  time : Int
  job : Nat
deriving DecidableEq, Repr

/-- Python `list.remove`: delete the first element equal to `e`; `none`
models the `ValueError` raised when no element is equal. -/
def removeFirst? (e : Entry) : List Entry → Option (List Entry)
  | [] => none
  | x :: xs => if x = e then some xs else (removeFirst? e xs).map (x :: ·)

/-- Behaviour of the `job` closures during one scan: for a job identity, the
entries it appends to the pending list before returning or raising, and
whether it raises (`true`); an exception interrupts the job after the listed
appends.  For the geo.py jobs a raising user callback means no append. -/
abbrev JobRun : Type := Nat → List Entry × Bool

/-- One iteration sweep of `Location._run_scheduler` over the snapshot copy
`self._pending_callbacks[:]`.  Arguments: the remaining snapshot, the live
pending list, and the accumulated invocation log.  Each log item records the
fired entry, the live list just before removal, and the live list the job
saw (after removal).  A due entry is removed before its job is invoked; the
`except` clause swallows both a failed `remove` (entry no longer present,
job then not invoked) and an exception out of the job itself. -/
def scanGo (now : Int) (run : JobRun) :
    List Entry → List Entry → List (Entry × List Entry × List Entry) →
    List Entry × List (Entry × List Entry × List Entry)
  | [], live, log => (live, log)
  | cb :: rest, live, log =>
    if cb.time ≤ now then
      match removeFirst? cb live with
      | none => scanGo now run rest live log
      | some live' =>
        scanGo now run rest (live' ++ (run cb.job).1) (log ++ [(cb, live, live')])
    else scanGo now run rest live log

/-- One full pass of the scheduler loop body: scan a snapshot of the current
pending queue.  Returns the final pending queue and the invocation log. -/
def runScan (now : Int) (run : JobRun) (queue : List Entry) :
    List Entry × List (Entry × List Entry × List Entry) :=
  scanGo now run queue queue []

/-- The entries fired (jobs invoked) during a scan, in invocation order. -/
def firedEntries (log : List (Entry × List Entry × List Entry)) : List Entry :=
  log.map (·.1)

/-- All entries appended to the pending list by the jobs fired in a scan. -/
def jobAppends (run : JobRun) (log : List (Entry × List Entry × List Entry)) :
    List Entry :=
  (log.map fun x => (run x.1.job).1).flatten

/-- The body of the `job` closure built by `Location.on_sunrise`: call the
user callback `func()`, then append one entry for tomorrow's sunrise plus
the offset.  `sunrise d` is the black-box `Sun.get_sunrise_time` at local
noon of date `d`; `fireDate` is `datetime.now(tz).date()` as the job runs;
`funcRaises` abstracts whether the user callback raises — if it does, the
append statement after it is never reached. -/
def sunriseJob (sunrise : Nat → Int) (off : Int) (jid : Nat) (fireDate : Nat)
    (funcRaises : Bool) : List Entry × Bool :=
  if funcRaises then ([], true)
  else ([⟨sunrise (fireDate + 1) + off, jid⟩], false)

/-- The body of the `job` closure built by `Location.on_sunset` (identical to
the sunrise job with `Sun.get_sunset_time`). -/
def sunsetJob (sunset : Nat → Int) (off : Int) (jid : Nat) (fireDate : Nat)
    (funcRaises : Bool) : List Entry × Bool :=
  if funcRaises then ([], true)
  else ([⟨sunset (fireDate + 1) + off, jid⟩], false)

/-- The body of the `job` closure built by `Location.on_localtime`:
`targetAt d` is `datetime.combine(d, target_time).replace(tzinfo=tz)`. -/
def localtimeJob (targetAt : Nat → Int) (jid : Nat) (fireDate : Nat)
    (funcRaises : Bool) : List Entry × Bool :=
  if funcRaises then ([], true)
  else ([⟨targetAt (fireDate + 1), jid⟩], false)

/-- First-occurrence computation of `Location.on_sunrise`: today's sunrise
plus the offset, or — when that instant is already ≤ now — tomorrow's
sunrise plus the offset. -/
def onSunriseFirstTime (sunrise : Nat → Int) (off : Int) (today : Nat)
    (now : Int) : Int :=
  let t := sunrise today + off
  if t ≤ now then sunrise (today + 1) + off else t

/-- First-occurrence computation of `Location.on_sunset`. -/
def onSunsetFirstTime (sunset : Nat → Int) (off : Int) (today : Nat)
    (now : Int) : Int :=
  let t := sunset today + off
  if t ≤ now then sunset (today + 1) + off else t

/-- First-occurrence computation of `Location.on_localtime`: today at the
target time, or tomorrow at the target time when that is already ≤ now. -/
def onLocaltimeFirstTime (targetAt : Nat → Int) (today : Nat) (now : Int) :
    Int :=
  let t := targetAt today
  if t ≤ now then targetAt (today + 1) else t

/-- Registration effect of the three decorators on the pending list: append
one entry carrying the computed first fire instant and the job closure. -/
def registerFirst (queue : List Entry) (fireTime : Int) (jid : Nat) :
    List Entry :=
  queue ++ [⟨fireTime, jid⟩]

/-
Theorems.
-/

/-- C4: for each of `on_sunrise`, `on_sunset` and `on_localtime`, the first
scheduled fire instant is today's occurrence (event plus offset, or the
target time) when that instant is strictly after now, and the occurrence
computed for tomorrow's date when it is less than or equal to now. -/
theorem C4_first_occurrence (sunrise sunset targetAt : Nat → Int) (off : Int)
    (today : Nat) (now : Int) :
    (now < sunrise today + off →
      onSunriseFirstTime sunrise off today now = sunrise today + off)
    ∧ (sunrise today + off ≤ now →
      onSunriseFirstTime sunrise off today now = sunrise (today + 1) + off)
    ∧ (now < sunset today + off →
      onSunsetFirstTime sunset off today now = sunset today + off)
    ∧ (sunset today + off ≤ now →
      onSunsetFirstTime sunset off today now = sunset (today + 1) + off)
    ∧ (now < targetAt today →
      onLocaltimeFirstTime targetAt today now = targetAt today)
    ∧ (targetAt today ≤ now →
      onLocaltimeFirstTime targetAt today now = targetAt (today + 1)) := by
  refine ⟨fun h => ?_, fun h => ?_, fun h => ?_, fun h => ?_, fun h => ?_,
    fun h => ?_⟩
  · simp [onSunriseFirstTime, not_le.mpr h]
  · simp [onSunriseFirstTime, h]
  · simp [onSunsetFirstTime, not_le.mpr h]
  · simp [onSunsetFirstTime, h]
  · simp [onLocaltimeFirstTime, not_le.mpr h]
  · simp [onLocaltimeFirstTime, h]

/-- Witness for C4 at concrete inputs: registering strictly before today's
occurrence schedules today, at or after it schedules tomorrow. -/
theorem C4_first_occurrence_witness :
    onSunriseFirstTime (fun d => 10 * (d : Int)) 1 3 0 = 31
    ∧ onSunriseFirstTime (fun d => 10 * (d : Int)) 1 3 31 = 41
    ∧ onLocaltimeFirstTime (fun d => 10 * (d : Int)) 3 29 = 30
    ∧ onLocaltimeFirstTime (fun d => 10 * (d : Int)) 3 30 = 40 := by
  refine ⟨?_, ?_, ?_, ?_⟩
  · exact (C4_first_occurrence (fun d => 10 * (d : Int))
      (fun d => 10 * (d : Int)) (fun d => 10 * (d : Int)) 1 3 0).1 (by decide)
  · exact (C4_first_occurrence (fun d => 10 * (d : Int))
      (fun d => 10 * (d : Int)) (fun d => 10 * (d : Int)) 1 3 31).2.1
      (by decide)
  · exact (C4_first_occurrence (fun d => 10 * (d : Int))
      (fun d => 10 * (d : Int)) (fun d => 10 * (d : Int)) 1 3 29).2.2.2.2.1
      (by decide)
  · exact (C4_first_occurrence (fun d => 10 * (d : Int))
      (fun d => 10 * (d : Int)) (fun d => 10 * (d : Int)) 1 3 30).2.2.2.2.2
      (by decide)

/-- C10: with no bus client registered and a topic not yet in the dispatch
table, the module-level `add_subscriber` raises (from `get_client`) before
any mutation: the returned state is exactly the input state — no manager
created, no subscriber stored, no subscribe call logged. -/
theorem C10_no_client_raises_before_mutation {D : Type} [DecidableEq D]
    (st : RuntimeState D) (topic : String) (cb : PyCallback)
    (pf : Option (PyVal D)) (hc : st.mqtt_client = none)
    (ht : lookupTopic st.subscribers topic = none) :
    runtimeAddSubscriber st topic cb pf = (st, true) := by
  unfold runtimeAddSubscriber
  rw [ht, hc]

/-- Witness for C10: a concrete registration on an empty state with no
client raises and leaves the state untouched. -/
theorem C10_no_client_witness :
    runtimeAddSubscriber (D := Nat) ⟨none, [], []⟩ ("local/test") ⟨0, 0, none⟩
      none = (⟨none, [], []⟩, true) :=
  C10_no_client_raises_before_mutation ⟨none, [], []⟩ ("local/test")
    ⟨0, 0, none⟩ none rfl rfl

/-- C3 (amended): tag resolution in `add_subscriber`.  One parameter with a
type annotation: that type is the tag.  One parameter without annotation:
the callback type defaults to raw bytes (regardless of any filter).  Zero
parameters: the tag is the filter's type when a filter is present, raw
bytes otherwise.  Consequently a callback with one unannotated parameter
and a non-bytes filter is rejected as incompatible, not registered under
the filter's type. -/
theorem C3_tag_resolution {D : Type} [DecidableEq D] (cb : PyCallback)
    (pf : Option (PyVal D)) (st : SubsState D) (f : PyVal D) :
    (∀ t : PyType, cb.paramCount = 1 → cb.annot = some t →
      callbackTypeOf cb = some t ∧ effectiveTypeOf cb pf = t)
    ∧ (cb.paramCount = 1 → cb.annot = none →
      callbackTypeOf cb = some PyType.bytes
        ∧ effectiveTypeOf cb pf = PyType.bytes)
    ∧ (cb.paramCount = 0 → effectiveTypeOf cb (some f) = f.typeOf)
    ∧ (cb.paramCount = 0 → effectiveTypeOf (D := D) cb none = PyType.bytes)
    ∧ (cb.paramCount = 1 → cb.annot = none → f.typeOf ≠ PyType.bytes →
      add_subscriber st cb (some f) = (st, false)) := by
  refine ⟨fun t h1 h2 => ?_, fun h1 h2 => ?_, fun h0 => ?_, fun h0 => ?_,
    fun h1 h2 hne => ?_⟩
  · constructor <;> simp [callbackTypeOf, effectiveTypeOf, h1, h2,
      Option.orElse]
  · constructor <;> simp [callbackTypeOf, effectiveTypeOf, h1, h2,
      Option.orElse]
  · simp [callbackTypeOf, effectiveTypeOf, h0, Option.orElse]
  · simp [callbackTypeOf, effectiveTypeOf, h0, Option.orElse]
  · have hct : callbackTypeOf cb = some PyType.bytes := by
      simp [callbackTypeOf, h1, h2]
    unfold add_subscriber
    rw [hct]
    simp [incompatible, h1, hne]

/-- Witness for C3 at concrete inputs: an annotated parameter wins, a
single unannotated parameter resolves to bytes, and a single unannotated
parameter combined with a text filter is rejected. -/
theorem C3_tag_resolution_witness :
    callbackTypeOf ⟨4, 1, some PyType.str⟩ = some PyType.str
    ∧ callbackTypeOf ⟨5, 1, none⟩ = some PyType.bytes
    ∧ add_subscriber (initSubs Nat) ⟨5, 1, none⟩ (some (PyVal.vstr "on"))
        = (initSubs Nat, false) := by
  refine ⟨?_, ?_, ?_⟩
  · exact ((C3_tag_resolution (D := Nat) ⟨4, 1, some PyType.str⟩ none
      (initSubs Nat) (PyVal.vstr "on")).1 PyType.str rfl rfl).1
  · exact ((C3_tag_resolution (D := Nat) ⟨5, 1, none⟩ none (initSubs Nat)
      (PyVal.vstr "on")).2.1 rfl rfl).1
  · exact (C3_tag_resolution (D := Nat) ⟨5, 1, none⟩ none (initSubs Nat)
      (PyVal.vstr "on")).2.2.2.2 rfl rfl (by decide)

/-- Counterexample to C3 as stated: a callback with one unannotated
parameter and a text filter is not registered under the str tag — it is
rejected outright and every subscriber list is left empty. -/
theorem C3_counterexample :
    (add_subscriber (initSubs Nat) ⟨7, 1, none⟩
        (some (PyVal.vstr "on"))).2 = false
    ∧ (add_subscriber (initSubs Nat) ⟨7, 1, none⟩
        (some (PyVal.vstr "on"))).1 Tag.str = [] :=
  ⟨rfl, rfl⟩

/-- C6 (amended): `add_subscriber` appends the subscriber to its resolved
tag's list exactly when all validations pass, and rejection leaves the
state unchanged.  The validations, in source order: at most one declared
parameter; the computed callback type (the annotation, or raw bytes for a
single unannotated parameter) compatible with a present filter's type; the
resolved effective type a key of the converter table. -/
theorem C6_registration_validation {D : Type} [DecidableEq D]
    (st : SubsState D) (cb : PyCallback) (pf : Option (PyVal D)) :
    ((add_subscriber st cb pf).2 = true ↔
      cb.paramCount ≤ 1 ∧ incompatible pf (callbackTypeOf cb) = false
        ∧ ((effectiveTypeOf cb pf).toTag?).isSome = true)
    ∧ ((add_subscriber st cb pf).2 = false → (add_subscriber st cb pf).1 = st)
    ∧ (∀ tg : Tag, (effectiveTypeOf cb pf).toTag? = some tg →
      (add_subscriber st cb pf).2 = true →
      (add_subscriber st cb pf).1
        = appendSub st tg ⟨cb.id, callbackTypeOf cb, pf⟩) := by
  unfold add_subscriber
  by_cases h1 : 1 < cb.paramCount
  · simp [h1, Nat.lt_iff_add_one_le] at *
  · by_cases h2 : incompatible pf (callbackTypeOf cb) = true
    · simp [h1, h2]
    · cases h3 : (effectiveTypeOf cb pf).toTag? with
      | none =>
        simp [h1, h2, h3, Nat.not_lt.mp h1, eq_false_of_ne_true h2]
      | some tg =>
        simp [h1, h2, h3, Nat.not_lt.mp h1, eq_false_of_ne_true h2]

/-- Witness for C6: a concrete zero-parameter, filterless callback passes
all validations and is appended under the raw-bytes tag. -/
theorem C6_registration_validation_witness :
    (add_subscriber (initSubs Nat) ⟨3, 0, none⟩ none).2 = true
    ∧ (add_subscriber (initSubs Nat) ⟨3, 0, none⟩ none).1
        = appendSub (initSubs Nat) Tag.bytes ⟨3, none, none⟩ := by
  have h := C6_registration_validation (initSubs Nat) ⟨3, 0, none⟩ none
  have hok : (add_subscriber (initSubs Nat) ⟨3, 0, none⟩ none).2 = true :=
    h.1.mpr ⟨by decide, by decide, by decide⟩
  refine ⟨hok, ?_⟩
  have happ := h.2.2 Tag.bytes (by decide) hok
  simpa using happ

/-- Counterexample to C6 as stated: a callback with one unannotated
parameter and a dict filter is rejected by the code, although it declares
no type (so no declared-type/filter disagreement), has exactly one
parameter, and the filter's tag (dict) is a key of the converter table. -/
theorem C6_counterexample :
    (add_subscriber (initSubs Nat) ⟨9, 1, none⟩
        (some (PyVal.vdict 0))).2 = false
    ∧ PyType.toTag? (PyVal.typeOf (PyVal.vdict (0 : Nat))) = some Tag.dict :=
  ⟨rfl, rfl⟩

/-- Unfolding of `matchedEvents` over the head subscriber. -/
theorem matchedEvents_cons {D : Type} [DecidableEq D] (v : PyVal D)
    (s : Subscriber D) (l : List (Subscriber D)) :
    matchedEvents v (s :: l)
      = if s.payload_filter = none ∨ s.payload_filter = some v
        then (s.callback, argOf s v) :: matchedEvents v l
        else matchedEvents v l := by
  by_cases h : s.payload_filter = none ∨ s.payload_filter = some v <;>
    simp [matchedEvents, List.filter_cons, h]

/-- When no callback raises, the inner delivery loop invokes exactly the
matched subscribers, in order. -/
theorem deliverSubs_noraise {D : Type} [DecidableEq D]
    (behave : Nat → Option (PyVal D) → Bool) (v : PyVal D)
    (l : List (Subscriber D)) (hb : ∀ n a, behave n a = false) :
    deliverSubs behave v l = (matchedEvents v l, false) := by
  induction l with
  | nil => simp [deliverSubs, matchedEvents]
  | cons s rest ih =>
    rw [matchedEvents_cons]
    by_cases h : s.payload_filter = none ∨ s.payload_filter = some v
    · have hskip : ¬(s.payload_filter.isSome ∧ s.payload_filter ≠ some v) := by
        rcases h with h | h <;> simp [h]
      simp [deliverSubs, hskip, hb, ih, h]
    · push_neg at h
      have hskip : s.payload_filter.isSome ∧ s.payload_filter ≠ some v :=
        ⟨Option.isSome_iff_ne_none.mpr h.1, h.2⟩
      simp [deliverSubs, hskip, ih, h.1, h.2]

/-- When no callback raises, `notify` converts once per non-empty tag in
iteration order and produces exactly the expected events. -/
theorem notifyGo_noraise {D : Type} [DecidableEq D]
    (conv : Tag → List Nat → Option (PyVal D))
    (behave : Nat → Option (PyVal D) → Bool) (payload : List Nat)
    (subs : SubsState D) (hb : ∀ n a, behave n a = false) (ts : List Tag) :
    notifyGo conv behave payload subs ts
      = ⟨ts.filter (fun t => !(subs t).isEmpty),
         expectedEvents conv payload subs ts, false⟩ := by
  induction ts with
  | nil => simp [notifyGo, expectedEvents]
  | cons t rest ih =>
    by_cases he : (subs t).isEmpty
    · simp [notifyGo, he, ih, expectedEvents, List.filter_cons,
        List.isEmpty_iff.mp he]
    · have hne : ¬ subs t = [] := fun h => he (List.isEmpty_iff.mpr h)
      cases hc : conv t payload with
      | none =>
        simp [notifyGo, he, hc, ih, expectedEvents, List.filter_cons, hne]
      | some v =>
        simp [notifyGo, he, hc, ih, expectedEvents, List.filter_cons,
          deliverSubs_noraise behave v _ hb, hne]

/-- C5 (amended): in a `notify` call during which no subscriber callback
raises, the converter of a tag is invoked exactly once when the tag has at
least one subscriber and zero times otherwise, and a conversion failure is
isolated to its tag — the counts hold for every conversion outcome `conv`,
so a failing tag leaves every other tag's single conversion in place. -/
theorem C5_convert_once_per_nonempty_tag {D : Type} [DecidableEq D]
    (conv : Tag → List Nat → Option (PyVal D))
    (behave : Nat → Option (PyVal D) → Bool) (payload : List Nat)
    (subs : SubsState D) (hb : ∀ n a, behave n a = false) :
    (∀ t : Tag, ((notify conv behave payload subs).convCalls).count t
        = if (subs t).isEmpty then 0 else 1)
    ∧ (notify conv behave payload subs).raised = false := by
  have h := notifyGo_noraise conv behave payload subs hb tagOrder
  constructor
  · intro t
    rw [notify, h]
    cases t <;>
      by_cases h1 : (subs Tag.bytes).isEmpty <;>
      by_cases h2 : (subs Tag.dict).isEmpty <;>
      by_cases h3 : (subs Tag.str).isEmpty <;>
        simp [tagOrder, List.filter_cons, h1, h2, h3, List.count_cons]
  · rw [notify, h]

/-- Witness for C5: with one dict subscriber and one str subscriber, a
failing JSON parse still counts one dict conversion, skips only the dict
subscribers, and leaves the str tag converted once; the empty bytes tag is
never converted. -/
theorem C5_convert_once_witness :
    (((notify (converters (fun _ => some "on") (fun _ => (none : Option Nat)))
        (fun _ _ => false) [1]
        (fun t => match t with
          | Tag.bytes => []
          | Tag.dict => [⟨4, some PyType.dict, none⟩]
          | Tag.str => [⟨5, some PyType.str, none⟩])).convCalls).count Tag.dict
        = 1)
    ∧ (((notify (converters (fun _ => some "on") (fun _ => (none : Option Nat)))
        (fun _ _ => false) [1]
        (fun t => match t with
          | Tag.bytes => []
          | Tag.dict => [⟨4, some PyType.dict, none⟩]
          | Tag.str => [⟨5, some PyType.str, none⟩])).convCalls).count Tag.bytes
        = 0)
    ∧ ((notify (converters (fun _ => some "on") (fun _ => (none : Option Nat)))
        (fun _ _ => false) [1]
        (fun t => match t with
          | Tag.bytes => []
          | Tag.dict => [⟨4, some PyType.dict, none⟩]
          | Tag.str => [⟨5, some PyType.str, none⟩])).raised = false) := by
  have h := C5_convert_once_per_nonempty_tag
    (converters (fun _ => some "on") (fun _ => (none : Option Nat)))
    (fun _ _ => false) [1]
    (fun t => match t with
      | Tag.bytes => []
      | Tag.dict => [⟨4, some PyType.dict, none⟩]
      | Tag.str => [⟨5, some PyType.str, none⟩])
    (fun _ _ => rfl)
  exact ⟨by simpa using h.1 Tag.dict, by simpa using h.1 Tag.bytes, h.2⟩

/-- Counterexample to C5 as stated: the str tag has a subscriber, yet its
converter is invoked zero times for this call, because the bytes-tag
subscriber's callback raised first and `notify` aborted. -/
theorem C5_counterexample :
    ¬ (((notify (converters (fun _ => some "on") (fun _ => (some 0 : Option Nat)))
        (fun n _ => decide (n = 1)) [9]
        (fun t => match t with
          | Tag.bytes => [⟨1, some PyType.bytes, none⟩]
          | Tag.dict => []
          | Tag.str => [⟨2, some PyType.str, none⟩])).convCalls).count Tag.str
        = 1) := by
  decide

/-- C7 (amended): in a `notify` call during which no subscriber callback
raises, the invocation events are exactly those of `expectedEvents`: for
each successfully converted tag, a subscriber is invoked exactly when its
filter is absent or equals the converted value, receiving the converted
value when it recorded a datatype and no argument otherwise. -/
theorem C7_filter_and_argument_semantics {D : Type} [DecidableEq D]
    (conv : Tag → List Nat → Option (PyVal D))
    (behave : Nat → Option (PyVal D) → Bool) (payload : List Nat)
    (subs : SubsState D) (hb : ∀ n a, behave n a = false) :
    (notify conv behave payload subs).events
      = expectedEvents conv payload subs tagOrder := by
  rw [notify, notifyGo_noraise conv behave payload subs hb tagOrder]

/-- Witness for C7: a filter equal to the decoded text fires, a different
filter does not, and a subscriber without a recorded datatype is invoked
with no argument. -/
theorem C7_filter_semantics_witness :
    (notify (converters (fun _ => some "on") (fun _ => (some 0 : Option Nat)))
        (fun _ _ => false) [1]
        (fun t => match t with
          | Tag.bytes => []
          | Tag.dict => []
          | Tag.str => [⟨1, some PyType.str, some (PyVal.vstr "on")⟩,
                        ⟨2, some PyType.str, some (PyVal.vstr "off")⟩,
                        ⟨3, none, some (PyVal.vstr "on")⟩])).events
      = [(1, some (PyVal.vstr "on")), (3, none)] := by
  rw [C7_filter_and_argument_semantics
    (converters (fun _ => some "on") (fun _ => (some 0 : Option Nat)))
    (fun _ _ => false) [1]
    (fun t => match t with
      | Tag.bytes => []
      | Tag.dict => []
      | Tag.str => [⟨1, some PyType.str, some (PyVal.vstr "on")⟩,
                    ⟨2, some PyType.str, some (PyVal.vstr "off")⟩,
                    ⟨3, none, some (PyVal.vstr "on")⟩])
    (fun _ _ => rfl)]
  decide

/-- Counterexample to C7 as stated: subscriber 2 of the bytes tag matches
(it has no filter) and the tag converted successfully, yet it is never
invoked, because subscriber 1 before it raised. -/
theorem C7_counterexample :
    (notify (converters (fun _ => some "x") (fun _ => (some 0 : Option Nat)))
        (fun n _ => decide (n = 1)) [3]
        (fun t => match t with
          | Tag.bytes => [⟨1, some PyType.bytes, none⟩,
                          ⟨2, some PyType.bytes, none⟩]
          | Tag.dict => []
          | Tag.str => [])).events
      = [(1, some (PyVal.vbytes [3]))] := by
  decide

/-- A matched subscriber whose callback raises ends the delivery loop at
its own invocation. -/
theorem deliverSubs_raise_head {D : Type} [DecidableEq D]
    (behave : Nat → Option (PyVal D) → Bool) (v : PyVal D) (s : Subscriber D)
    (post : List (Subscriber D))
    (hmatch : s.payload_filter = none ∨ s.payload_filter = some v)
    (hraise : behave s.callback (argOf s v) = true) :
    deliverSubs behave v (s :: post) = ([(s.callback, argOf s v)], true) := by
  have hskip : ¬(s.payload_filter.isSome ∧ s.payload_filter ≠ some v) := by
    rcases hmatch with h | h <;> simp [h]
  simp [deliverSubs, hskip, hraise]

/-- A prefix of subscribers none of whose matched callbacks raise
contributes its matched events and passes control to the rest. -/
theorem deliverSubs_prefix {D : Type} [DecidableEq D]
    (behave : Nat → Option (PyVal D) → Bool) (v : PyVal D)
    (pre l : List (Subscriber D))
    (hpre : ∀ s ∈ pre, (s.payload_filter = none ∨ s.payload_filter = some v) →
      behave s.callback (argOf s v) = false) :
    deliverSubs behave v (pre ++ l)
      = (matchedEvents v pre ++ (deliverSubs behave v l).1,
         (deliverSubs behave v l).2) := by
  induction pre with
  | nil => simp [matchedEvents]
  | cons s rest ih =>
    have hs := hpre s (by simp)
    have ih' := ih fun s' hmem hm => hpre s' (by simp [hmem]) hm
    rw [matchedEvents_cons]
    by_cases h : s.payload_filter = none ∨ s.payload_filter = some v
    · have hskip : ¬(s.payload_filter.isSome ∧ s.payload_filter ≠ some v) := by
        rcases h with h | h <;> simp [h]
      simp [deliverSubs, hskip, hs h, ih', h]
    · push_neg at h
      have hskip : s.payload_filter.isSome ∧ s.payload_filter ≠ some v :=
        ⟨Option.isSome_iff_ne_none.mpr h.1, h.2⟩
      simp [deliverSubs, hskip, ih', h.1, h.2]

/-- Splitting the tag iteration of `notify`: a raising prefix ends the call,
otherwise the outputs of the two halves concatenate. -/
theorem notifyGo_append {D : Type} [DecidableEq D]
    (conv : Tag → List Nat → Option (PyVal D))
    (behave : Nat → Option (PyVal D) → Bool) (payload : List Nat)
    (subs : SubsState D) (xs ys : List Tag) :
    notifyGo conv behave payload subs (xs ++ ys)
      = if (notifyGo conv behave payload subs xs).raised
        then notifyGo conv behave payload subs xs
        else
          ⟨(notifyGo conv behave payload subs xs).convCalls
              ++ (notifyGo conv behave payload subs ys).convCalls,
            (notifyGo conv behave payload subs xs).events
              ++ (notifyGo conv behave payload subs ys).events,
            (notifyGo conv behave payload subs ys).raised⟩ := by
  induction xs with
  | nil => simp [notifyGo]
  | cons t rest ih =>
    by_cases he : (subs t).isEmpty
    · simpa [notifyGo, he] using ih
    · cases hc : conv t payload with
      | none =>
        by_cases hr : (notifyGo conv behave payload subs rest).raised <;>
          simp [notifyGo, he, hc, ih, hr]
      | some v =>
        cases hd : (deliverSubs behave v (subs t)).2 with
        | true => simp [notifyGo, he, hc, hd]
        | false =>
          by_cases hr : (notifyGo conv behave payload subs rest).raised <;>
            simp [notifyGo, he, hc, hd, ih, hr]

/-- C1 (amended): a subscriber callback that raises during `notify` does
prevent the rest of the dispatch — subscribers after it in the same tag's
list and all later tags are no longer invoked or converted — and the
exception propagates out of `notify`; subscribers matched before the
raising one are invoked normally. -/
theorem C1_raising_callback_aborts_notify {D : Type} [DecidableEq D]
    (conv : Tag → List Nat → Option (PyVal D))
    (behave : Nat → Option (PyVal D) → Bool) (payload : List Nat)
    (subs : SubsState D) (done : List Tag) (t : Tag) (rest : List Tag)
    (pre : List (Subscriber D)) (s : Subscriber D)
    (post : List (Subscriber D)) (v : PyVal D)
    (horder : tagOrder = done ++ t :: rest)
    (hdone : (notifyGo conv behave payload subs done).raised = false)
    (hsubs : subs t = pre ++ s :: post)
    (hconv : conv t payload = some v)
    (hpre : ∀ s' ∈ pre,
      (s'.payload_filter = none ∨ s'.payload_filter = some v) →
      behave s'.callback (argOf s' v) = false)
    (hmatch : s.payload_filter = none ∨ s.payload_filter = some v)
    (hraise : behave s.callback (argOf s v) = true) :
    notify conv behave payload subs
      = ⟨(notifyGo conv behave payload subs done).convCalls ++ [t],
         (notifyGo conv behave payload subs done).events
           ++ (matchedEvents v pre ++ [(s.callback, argOf s v)]),
         true⟩ := by
  have hne : ¬(subs t).isEmpty := by
    rw [hsubs]
    simp
  have hdel : deliverSubs behave v (subs t)
      = (matchedEvents v pre ++ [(s.callback, argOf s v)], true) := by
    rw [hsubs, deliverSubs_prefix behave v pre (s :: post) hpre,
      deliverSubs_raise_head behave v s post hmatch hraise]
  have hstep : notifyGo conv behave payload subs (t :: rest)
      = ⟨[t], matchedEvents v pre ++ [(s.callback, argOf s v)], true⟩ := by
    simp [notifyGo, hne, hconv, hdel]
  rw [notify, horder, notifyGo_append, hstep]
  simp [hdone]

/-- Witness for C1: the first bytes-tag subscriber raises; `notify` reports
only its invocation and the propagated exception, so the second bytes-tag
subscriber and the str-tag subscriber are never reached. -/
theorem C1_raising_callback_witness :
    notify (converters (fun _ => some "x") (fun _ => (some 0 : Option Nat)))
      (fun n _ => decide (n = 11)) [7]
      (fun tg => match tg with
        | Tag.bytes => [⟨11, some PyType.bytes, none⟩,
                        ⟨12, some PyType.bytes, none⟩]
        | Tag.dict => []
        | Tag.str => [⟨13, some PyType.str, none⟩])
      = ⟨[Tag.bytes], [(11, some (PyVal.vbytes [7]))], true⟩ := by
  have h := C1_raising_callback_aborts_notify
    (converters (fun _ => some "x") (fun _ => (some 0 : Option Nat)))
    (fun n _ => decide (n = 11)) [7]
    (fun tg => match tg with
      | Tag.bytes => [⟨11, some PyType.bytes, none⟩,
                      ⟨12, some PyType.bytes, none⟩]
      | Tag.dict => []
      | Tag.str => [⟨13, some PyType.str, none⟩])
    [] Tag.bytes [Tag.dict, Tag.str] [] ⟨11, some PyType.bytes, none⟩
    [⟨12, some PyType.bytes, none⟩] (PyVal.vbytes [7]) rfl rfl rfl rfl
    (by intro s' h'; simp at h') (Or.inl rfl) (by decide)
  simpa [matchedEvents, notifyGo] using h

/-- Counterexample to C1 as stated: subscriber 1 raises; subscriber 2 (same
tag, no filter, due to be invoked) and subscriber 3 (different tag, filter
matching the decoded payload) are not invoked for the message, and the
exception escapes `notify`. -/
theorem C1_counterexample :
    notify (converters (fun _ => some "x") (fun _ => (some 0 : Option Nat)))
      (fun n _ => decide (n = 1)) [9]
      (fun tg => match tg with
        | Tag.bytes => [⟨1, some PyType.bytes, none⟩,
                        ⟨2, some PyType.bytes, none⟩]
        | Tag.dict => []
        | Tag.str => [⟨3, none, some (PyVal.vstr "x")⟩])
      = ⟨[Tag.bytes], [(1, some (PyVal.vbytes [9]))], true⟩ := by
  decide

/-- Unfolding of one scan iteration whose entry is not due. -/
theorem scanGo_not_due (now : Int) (run : JobRun) (cb : Entry)
    (rest live : List Entry) (log : List (Entry × List Entry × List Entry))
    (hdue : ¬cb.time ≤ now) :
    scanGo now run (cb :: rest) live log = scanGo now run rest live log := by
  simp [scanGo, hdue]

/-- Unfolding of one scan iteration whose due entry is no longer present
(`list.remove` raises, the exception is caught, the job is not invoked). -/
theorem scanGo_remove_fail (now : Int) (run : JobRun) (cb : Entry)
    (rest live : List Entry) (log : List (Entry × List Entry × List Entry))
    (hdue : cb.time ≤ now) (hrm : removeFirst? cb live = none) :
    scanGo now run (cb :: rest) live log = scanGo now run rest live log := by
  simp [scanGo, hdue, hrm]

/-- Unfolding of one scan iteration that fires its due entry: the entry is
removed, the job runs against the shortened queue and its appends land at
the end, and the invocation is logged. -/
theorem scanGo_fire (now : Int) (run : JobRun) (cb : Entry)
    (rest live live' : List Entry)
    (log : List (Entry × List Entry × List Entry)) (hdue : cb.time ≤ now)
    (hrm : removeFirst? cb live = some live') :
    scanGo now run (cb :: rest) live log
      = scanGo now run rest (live' ++ (run cb.job).1)
          (log ++ [(cb, live, live')]) := by
  simp [scanGo, hdue, hrm]

/-- The fired entries of two concatenated log pieces. -/
theorem firedEntries_append (l1 l2 : List (Entry × List Entry × List Entry)) :
    firedEntries (l1 ++ l2) = firedEntries l1 ++ firedEntries l2 := by
  simp [firedEntries]

/-- The job appends of two concatenated log pieces. -/
theorem jobAppends_append (run : JobRun)
    (l1 l2 : List (Entry × List Entry × List Entry)) :
    jobAppends run (l1 ++ l2) = jobAppends run l1 ++ jobAppends run l2 := by
  simp [jobAppends]

/-- The log accumulator of `scanGo` is a pure prefix: scanning with an
initial log appends to it exactly what scanning with an empty log yields. -/
theorem scanGo_log_acc (now : Int) (run : JobRun) :
    ∀ (snap live : List Entry) (log : List (Entry × List Entry × List Entry)),
    scanGo now run snap live log
      = ((scanGo now run snap live []).1,
         log ++ (scanGo now run snap live []).2) := by
  intro snap
  induction snap with
  | nil =>
    intro live log
    simp [scanGo]
  | cons cb rest ih =>
    intro live log
    by_cases hdue : cb.time ≤ now
    · cases hrm : removeFirst? cb live with
      | none =>
        rw [scanGo_remove_fail now run cb rest live log hdue hrm,
          scanGo_remove_fail now run cb rest live [] hdue hrm, ih live log]
      | some live' =>
        rw [scanGo_fire now run cb rest live live' log hdue hrm,
          scanGo_fire now run cb rest live live' [] hdue hrm,
          ih (live' ++ (run cb.job).1) (log ++ [(cb, live, live')]),
          ih (live' ++ (run cb.job).1) ([] ++ [(cb, live, live')])]
        simp
    · rw [scanGo_not_due now run cb rest live log hdue,
        scanGo_not_due now run cb rest live [] hdue, ih live log]

/-- Removing the first occurrence of `e` decrements its count by one and
leaves every other count unchanged. -/
theorem removeFirst?_count (e x : Entry) :
    ∀ (l l' : List Entry), removeFirst? e l = some l' →
    l.count x = l'.count x + if x = e then 1 else 0 := by
  intro l
  induction l with
  | nil =>
    intro l' h
    simp [removeFirst?] at h
  | cons y ys ih =>
    intro l' h
    rw [removeFirst?] at h
    by_cases hy : y = e
    · rw [if_pos hy] at h
      injection h with h2
      subst h2
      subst hy
      by_cases hxy : x = y <;> simp [List.count_cons, hxy]
    · rw [if_neg hy] at h
      cases hr : removeFirst? e ys with
      | none =>
        rw [hr] at h
        simp at h
      | some ys' =>
        rw [hr] at h
        simp only [Option.map_some'] at h
        injection h with h2
        subst h2
        have hc := ih ys' hr
        simp only [List.count_cons, hc]
        omega

/-- Every logged invocation of a scan really removed its entry from the
pending queue first: the queue the job saw is the queue before the
iteration with the entry's first occurrence deleted. -/
theorem scanGo_all_removed (now : Int) (run : JobRun) :
    ∀ (snap live : List Entry),
      ∀ x ∈ (scanGo now run snap live []).2,
        removeFirst? x.1 x.2.1 = some x.2.2 := by
  intro snap
  induction snap with
  | nil =>
    intro live x hx
    simp [scanGo] at hx
  | cons cb rest ih =>
    intro live x hx
    by_cases hdue : cb.time ≤ now
    · cases hrm : removeFirst? cb live with
      | none =>
        rw [scanGo_remove_fail now run cb rest live [] hdue hrm] at hx
        exact ih live x hx
      | some live' =>
        rw [scanGo_fire now run cb rest live live' [] hdue hrm,
          scanGo_log_acc now run rest (live' ++ (run cb.job).1)
            ([] ++ [(cb, live, live')])] at hx
        simp only [List.nil_append, List.singleton_append] at hx
        rcases List.mem_cons.mp hx with rfl | hx
        · exact hrm
        · exact ih (live' ++ (run cb.job).1) x hx
    · rw [scanGo_not_due now run cb rest live [] hdue] at hx
      exact ih live x hx

/-- Each occurrence of an entry in the snapshot is fired at most once in
one scan. -/
theorem scanGo_fired_le (now : Int) (run : JobRun) (e : Entry) :
    ∀ (snap live : List Entry),
      (firedEntries (scanGo now run snap live []).2).count e
        ≤ snap.count e := by
  intro snap
  induction snap with
  | nil =>
    intro live
    simp [scanGo, firedEntries]
  | cons cb rest ih =>
    intro live
    have hmono : ∀ l : List Entry,
        (firedEntries (scanGo now run rest l []).2).count e
          ≤ (cb :: rest).count e := by
      intro l
      calc (firedEntries (scanGo now run rest l []).2).count e
          ≤ rest.count e := ih l
        _ ≤ (cb :: rest).count e := by
            by_cases he : e = cb <;> simp [List.count_cons, he]
    by_cases hdue : cb.time ≤ now
    · cases hrm : removeFirst? cb live with
      | none =>
        rw [scanGo_remove_fail now run cb rest live [] hdue hrm]
        exact hmono live
      | some live' =>
        rw [scanGo_fire now run cb rest live live' [] hdue hrm,
          scanGo_log_acc now run rest (live' ++ (run cb.job).1)
            ([] ++ [(cb, live, live')])]
        have hle := ih (live' ++ (run cb.job).1)
        simp only [List.nil_append, List.singleton_append, firedEntries,
          List.map_cons, List.count_cons] at *
        by_cases he : e = cb <;> simp [he] at * <;> omega
    · rw [scanGo_not_due now run cb rest live [] hdue]
      exact hmono live

/-- Conservation over one scan: final queue plus fired entries equals the
initial queue plus everything the fired jobs appended — no lost inserts, no
duplicate fires, and a raising job neither refires nor restores its entry. -/
theorem scanGo_conservation (now : Int) (run : JobRun) (e : Entry) :
    ∀ (snap live : List Entry),
      (scanGo now run snap live []).1.count e
          + (firedEntries (scanGo now run snap live []).2).count e
        = live.count e
            + (jobAppends run (scanGo now run snap live []).2).count e := by
  intro snap
  induction snap with
  | nil =>
    intro live
    simp [scanGo, firedEntries, jobAppends]
  | cons cb rest ih =>
    intro live
    by_cases hdue : cb.time ≤ now
    · cases hrm : removeFirst? cb live with
      | none =>
        rw [scanGo_remove_fail now run cb rest live [] hdue hrm]
        exact ih live
      | some live' =>
        rw [scanGo_fire now run cb rest live live' [] hdue hrm,
          scanGo_log_acc now run rest (live' ++ (run cb.job).1)
            ([] ++ [(cb, live, live')])]
        have hcnt := removeFirst?_count cb e live live' hrm
        have ihx := ih (live' ++ (run cb.job).1)
        rw [List.count_append] at ihx
        simp only [List.nil_append, List.singleton_append, firedEntries,
          jobAppends, List.map_cons, List.flatten_cons, List.count_cons,
          List.count_append] at *
        by_cases he : e = cb
        · subst he
          simp at *
          omega
        · have he' : ¬cb = e := fun h2 => he h2.symm
          simp [he, he'] at *
          omega
    · rw [scanGo_not_due now run cb rest live [] hdue]
      exact ih live

/-- C9: in every scan of the scheduler loop, a due entry is removed from
the pending queue before its job is invoked (each log item's removal
succeeded), each snapshot occurrence of an entry is fired at most once, and
queue counts are conserved — fires plus survivors equal initial entries
plus job-made appends, whether or not a job raised. -/
theorem C9_due_entry_removed_before_invoke (now : Int) (run : JobRun)
    (queue : List Entry) :
    ((runScan now run queue).2.all fun x =>
        removeFirst? x.1 x.2.1 == some x.2.2) = true
    ∧ (∀ e : Entry,
        (firedEntries (runScan now run queue).2).count e ≤ queue.count e)
    ∧ (∀ e : Entry,
        (runScan now run queue).1.count e
            + (firedEntries (runScan now run queue).2).count e
          = queue.count e
              + (jobAppends run (runScan now run queue).2).count e) := by
  refine ⟨?_, fun e => scanGo_fired_le now run e queue queue,
    fun e => scanGo_conservation now run e queue queue⟩
  rw [List.all_eq_true]
  intro x hx
  have h := scanGo_all_removed now run queue queue x hx
  simp [h]

/-- C2 (amended): when a pending entry of one of the three recurring
decorators becomes due, the scan fires it exactly once (one log item); if
the user callback returns normally, exactly one new entry is inserted for
tomorrow's occurrence — tomorrow relative to the fire date, however late
the fire — but if the callback raises, the exception is caught by the loop
and no new entry is inserted (the recurrence ends). -/
theorem C2_fire_invokes_once_and_reschedules
    (sunrise sunset targetAt : Nat → Int) (off : Int) (jid fireDate : Nat)
    (fr : Bool) (now t0 : Int) (h : t0 ≤ now) :
    runScan now (fun _ => sunriseJob sunrise off jid fireDate fr) [⟨t0, jid⟩]
        = (if fr then [] else [⟨sunrise (fireDate + 1) + off, jid⟩],
           [(⟨t0, jid⟩, [⟨t0, jid⟩], [])])
    ∧ runScan now (fun _ => sunsetJob sunset off jid fireDate fr) [⟨t0, jid⟩]
        = (if fr then [] else [⟨sunset (fireDate + 1) + off, jid⟩],
           [(⟨t0, jid⟩, [⟨t0, jid⟩], [])])
    ∧ runScan now (fun _ => localtimeJob targetAt jid fireDate fr) [⟨t0, jid⟩]
        = (if fr then [] else [⟨targetAt (fireDate + 1), jid⟩],
           [(⟨t0, jid⟩, [⟨t0, jid⟩], [])]) := by
  refine ⟨?_, ?_, ?_⟩ <;>
    cases fr <;>
      simp [runScan, scanGo, h, removeFirst?, sunriseJob, sunsetJob,
        localtimeJob]

/-- Witness for C2 at concrete inputs: a sunrise entry due now fires once
and reschedules itself for tomorrow's sunrise. -/
theorem C2_fire_witness :
    runScan 300 (fun _ => sunriseJob (fun d => 100 * (d : Int)) 0 5 3 false)
        [⟨300, 5⟩]
      = ([⟨400, 5⟩], [(⟨300, 5⟩, [⟨300, 5⟩], [])]) := by
  have h := C2_fire_invokes_once_and_reschedules (fun d => 100 * (d : Int))
    (fun d => 100 * (d : Int)) (fun d => 100 * (d : Int)) 0 5 3 false 300 300
    (by decide)
  simpa using h.1

/-- Counterexample to C2 as stated: if the user callback raises when the
sunrise job fires, no new pending entry is inserted at all — the pending
queue is left empty rather than holding tomorrow's occurrence. -/
theorem C2_counterexample :
    (runScan 300 (fun _ => sunriseJob (fun d => 100 * (d : Int)) 0 5 3 true)
        [⟨300, 5⟩]).1 = [] := by
  decide

/-- `updateTopic` never changes the topic keys of the dispatch table. -/
theorem updateTopic_keys {D : Type} (l : List (String × SubsState D))
    (topic : String) (f : SubsState D → SubsState D) :
    (updateTopic l topic f).map Prod.fst = l.map Prod.fst := by
  induction l with
  | nil => rfl
  | cons km rest ih =>
    by_cases h : km.1 = topic <;> simp [updateTopic, h] <;>
      simpa [updateTopic] using ih

/-- Dictionary lookup fails exactly when the topic is not among the keys. -/
theorem lookupTopic_none_iff {D : Type} (l : List (String × SubsState D))
    (topic : String) :
    lookupTopic l topic = none ↔ topic ∉ l.map Prod.fst := by
  induction l with
  | nil => simp [lookupTopic]
  | cons km rest ih =>
    by_cases h : km.1 = topic
    · simp [lookupTopic, h]
    · have h' : ¬topic = km.1 := fun h2 => h h2.symm
      simp [lookupTopic, h, h', ih]

/-- One module-level registration preserves the state invariant and adds
the topic to the keys (and to the subscribe log) exactly when it was new. -/
theorem runtimeAddSubscriber_step {D : Type} [DecidableEq D]
    (st : RuntimeState D) (topic : String) (cb : PyCallback)
    (pf : Option (PyVal D)) (hg : GoodState st) :
    GoodState (runtimeAddSubscriber st topic cb pf).1
    ∧ (runtimeAddSubscriber st topic cb pf).1.subscribers.map Prod.fst
        = (if topic ∈ st.subscribers.map Prod.fst
           then st.subscribers.map Prod.fst
           else st.subscribers.map Prod.fst ++ [topic]) := by
  obtain ⟨hlog, hnd, hcl⟩ := hg
  cases hl : lookupTopic st.subscribers topic with
  | some m =>
    have hmem : topic ∈ st.subscribers.map Prod.fst := by
      by_contra hmem
      rw [← lookupTopic_none_iff] at hmem
      rw [hl] at hmem
      cases hmem
    rw [runtimeAddSubscriber, hl]
    refine ⟨⟨?_, ?_, hcl⟩, ?_⟩ <;>
      simp [updateTopic_keys, hlog, hnd, hmem]
  | none =>
    have hmem : topic ∉ st.subscribers.map Prod.fst :=
      (lookupTopic_none_iff st.subscribers topic).mp hl
    cases hc : st.mqtt_client with
    | none =>
      rw [hc] at hcl
      cases hcl
    | some c =>
      rw [runtimeAddSubscriber, hl, hc]
      refine ⟨⟨?_, ?_, ?_⟩, ?_⟩
      · simp [hlog]
      · simp only [List.map_append, List.map_cons, List.map_nil]
        exact hnd.append (List.nodup_singleton topic)
          (by simpa [List.disjoint_left] using hmem)
      · simp
      · simp [hmem]

/-- Over any sequence of registrations from a good state, each topic is in
the subscribe log once if it is an existing key or gets registered, and
zero times otherwise. -/
theorem runOps_subscribe_count {D : Type} [DecidableEq D] :
    ∀ (ops : List (RegOp D)) (st : RuntimeState D), GoodState st →
    ∀ t : String,
      ((runOps st ops).subscribeLog).count t
        = if t ∈ st.subscribers.map Prod.fst ∨ t ∈ ops.map (fun o => o.1)
          then 1 else 0 := by
  intro ops
  induction ops with
  | nil =>
    intro st hg t
    have hiff : (t ∈ st.subscribers.map Prod.fst
          ∨ t ∈ ([] : List (RegOp D)).map (fun o => o.1))
        ↔ t ∈ st.subscribers.map Prod.fst := by simp
    rw [runOps, hg.1, List.count_eq_of_nodup hg.2.1, if_congr hiff rfl rfl]
  | cons op rest ih =>
    intro st hg t
    have hst := runtimeAddSubscriber_step st op.1 op.2.1 op.2.2 hg
    rw [runOps, ih _ hst.1 t]
    have hiff :
        (t ∈ (runtimeAddSubscriber st op.1 op.2.1
                op.2.2).1.subscribers.map Prod.fst
            ∨ t ∈ rest.map (fun o => o.1))
          ↔ (t ∈ st.subscribers.map Prod.fst
            ∨ t ∈ (op :: rest).map (fun o => o.1)) := by
      rw [hst.2]
      by_cases hm : op.1 ∈ st.subscribers.map Prod.fst
      · simp only [hm, if_true, List.map_cons, List.mem_cons]
        constructor
        · rintro (h | h)
          · exact Or.inl h
          · exact Or.inr (Or.inr h)
        · rintro (h | h | h)
          · exact Or.inl h
          · rw [h]
            exact Or.inl hm
          · exact Or.inr h
      · simp only [hm, if_false, List.map_cons, List.mem_cons,
          List.mem_append, List.mem_singleton]
        tauto
    rw [if_congr hiff rfl rfl]

/-- C8: starting from a fresh state with a registered bus client, across
any sequence of module-level `add_subscriber` calls the bus client's
`subscribe(topic)` is requested exactly once per distinct topic that was
registered on, and never for any other topic. -/
theorem C8_subscribe_once_per_topic {D : Type} [DecidableEq D] (c : Nat)
    (ops : List (RegOp D)) (t : String) :
    ((runOps (D := D) ⟨some c, [], []⟩ ops).subscribeLog).count t
      = if t ∈ ops.map (fun o => o.1) then 1 else 0 := by
  have hg : GoodState (D := D) ⟨some c, [], []⟩ :=
    ⟨rfl, List.nodup_nil, rfl⟩
  have h := runOps_subscribe_count ops ⟨some c, [], []⟩ hg t
  have hiff : (t ∈ (RuntimeState.mk (D := D) (some c) [] []).subscribers.map
        Prod.fst ∨ t ∈ ops.map (fun o => o.1))
      ↔ t ∈ ops.map (fun o => o.1) := by simp
  rw [if_congr hiff rfl rfl] at h
  exact h

end Mqtt
